import Mathlib

/-!
Verification development for the ClusteringTickerSelection repository.

The repository consists of four Python files:
* `function_cluster.py` — three clustering strategy classes
  (`KMeansClustering`, `GMMClustering`, `AgglomerativeClusteringOptimal`);
* `efr_classification.py` — the `EfficiencyRatioAnalysis` pipeline
  (`load_data`, `calculate_er`, `tickers_clusters_er`);
* `data_loader.py`, `main.py` — I/O plumbing, external to the core.

External collaborators (scikit-learn estimators, yellowbrick's elbow
visualizer, the `pandas_ta.er` statistic, and the MT5 price feed) are
abstracted as oracle functions; the repository's own control flow,
arithmetic and error behaviour are embedded directly.  Machine floats are
modelled by exact rationals; the floating-point value NaN is modelled by
`Option.none`, matching pandas' skip-NaN aggregation semantics.
-/

set_option linter.unusedVariables false

/-- A data matrix: a list of rows, each row a list of rational entries
(the shallow embedding of a numeric `ndarray`). -/
abbrev Mat : Type := List (List ℚ)

/-- A matrix that may contain NaN entries (`none` models NaN). -/
abbrev OMat : Type := List (List (Option ℚ))

/-- Decidable equality of `Except` results, for evaluating concrete
runs of the embedded pipeline. -/
instance exceptDecEq {e a : Type} [DecidableEq e] [DecidableEq a] :
    DecidableEq (Except e a) := fun x y =>
  match x, y with
  | .error u, .error v =>
    if h : u = v then isTrue (congrArg Except.error h)
    else isFalse (fun hc => h (Except.error.inj hc))
  | .ok u, .ok v =>
    if h : u = v then isTrue (congrArg Except.ok h)
    else isFalse (fun hc => h (Except.ok.inj hc))
  | .error u, .ok v => isFalse (fun hc => Except.noConfusion hc)
  | .ok u, .error v => isFalse (fun hc => Except.noConfusion hc)

/-- Squaring on rationals, used for squared Euclidean distances. -/
def sqr (x : ℚ) : ℚ := x * x

/-- Elementwise subtraction of two vectors (numpy row broadcasting). -/
def vsub (u v : List ℚ) : List ℚ := List.zipWith (· - ·) u v

/-- Elementwise addition of two vectors. -/
def vadd (u v : List ℚ) : List ℚ := List.zipWith (· + ·) u v

/-- Column-wise sum of the rows of a matrix (numpy `sum(axis=0)` over a
nonempty rectangular matrix; the empty matrix sums to the empty vector). -/
def sumRows : Mat → List ℚ
  | [] => []
  | [r] => r
  | r :: rest => vadd r (sumRows rest)

/-- Column-wise mean of the rows of a matrix (numpy `mean(axis=0)`). -/
def meanAxis0 (rows : Mat) : List ℚ :=
  (sumRows rows).map (· / (rows.length : ℚ))

/-- Squared Frobenius norm of a matrix: the sum of the squares of all
entries, i.e. `np.linalg.norm(A) ** 2` in exact arithmetic. -/
def frobSq (m : Mat) : ℚ := (m.map (fun r => (r.map sqr).sum)).sum

/-- Squared Euclidean distance between two vectors. -/
def sqDist (u v : List ℚ) : ℚ := ((vsub u v).map sqr).sum

/-- Discrete first difference of a sequence: `np.diff`, sending
`[x0, x1, ..., xn]` to `[x1 - x0, ..., xn - x(n-1)]`. -/
def listDiff (l : List ℚ) : List ℚ := List.zipWith (· - ·) l.tail l

/-- Index of the first minimum of a list: the semantics of `np.argmin`
(`none` on the empty list, where numpy raises). -/
def listArgmin : List ℚ → Option ℕ
  | [] => none
  | [_] => some 0
  | x :: y :: xs =>
    match listArgmin (y :: xs) with
    | none => some 0
    | some j => if x ≤ (y :: xs).getD j 0 then some 0 else some (j + 1)

/-- Mean of the defined values of a list, skipping `none`: pandas
`Series.mean()` with its default `skipna=True`; all-NaN input yields NaN. -/
def meanSkipNA (l : List (Option ℚ)) : Option ℚ :=
  let v := l.reduceOption
  if v.isEmpty then none else some (v.sum / (v.length : ℚ))

/-- Plain arithmetic mean of a list of rationals. -/
def arithMean (l : List ℚ) : ℚ := l.sum / (l.length : ℚ)

/-- Round-half-to-even on a rational, the rounding mode of float/pandas
rounding. -/
def roundHalfEven (x : ℚ) : ℤ :=
  let f := ⌊x⌋
  let r := x - (f : ℚ)
  if r < 1/2 then f
  else if 1/2 < r then f + 1
  else if f % 2 = 0 then f else f + 1

/-- Rounding to 5 decimal places (`Series.round(5)`), half to even. -/
def round5 (x : ℚ) : ℚ := (roundHalfEven (x * 100000) : ℚ) / 100000

/-- Traverse a list with a fallible function, failing on the first
exception (the semantics of a Python loop that may raise). -/
def exceptMapList {a b : Type} (f : a → Except PyErr b) : List a → Except PyErr (List b)
  | [] => .ok []
  | x :: l =>
    match f x with
    | .error e => .error e
    | .ok y =>
      match exceptMapList f l with
      | .error e => .error e
      | .ok ys => .ok (y :: ys)

/-- Traverse a list with a partial function, `none` if any element maps
to `none`. -/
def optionMapList {a b : Type} (f : a → Option b) : List a → Option (List b)
  | [] => some []
  | x :: l =>
    match f x with
    | none => none
    | some y =>
      match optionMapList f l with
      | none => none
      | some ys => some (y :: ys)

/-- NaN validation: `some` of the plain matrix iff the input has no NaN
entry, modelling scikit-learn's `check_array` rejection of NaN input. -/
def denan (x : OMat) : Option Mat := optionMapList (fun r => optionMapList id r) x

/-- Python exceptions that the embedded code can raise.  Constructors with
no message model library-raised errors (pandas, numpy, scikit-learn);
`valueError` carries the message of a `ValueError` raised by the
repository's own code. -/
inductive PyErr : Type
  /-- A `ValueError` raised explicitly by repository code, with message. -/
  | valueError (msg : String)
  /-- pandas `ValueError` raised by `pd.concat` on an empty list of
  objects (message "No objects to concatenate"). -/
  | concatEmpty
  /-- scikit-learn `ValueError` raised when input data contains NaN. -/
  | inputNaN
  /-- scikit-learn `ValueError` raised when the data has fewer samples
  than the requested number of clusters or components. -/
  | tooFewSamples
  /-- numpy `ValueError` raised by `argmin` on an empty sequence. -/
  | argminEmpty
  /-- The repository's `ValueError` for a criterion other than aic/bic. -/
  | invalidCriterion
  /-- scikit-learn parameter-validation error for a non-positive
  cluster/component count. -/
  | invalidClusterCount
  /-- `TypeError` from constructing `KMeans(n_clusters=None)` after the
  elbow visualizer found no elbow. -/
  | noneCount
  /-- Python `AttributeError` (accessing `.labels_` on a non-model). -/
  | attributeError
  /-- pandas `ValueError` when assigning a column whose length differs
  from the frame's number of rows. -/
  | lengthMismatch
deriving DecidableEq

/-- The value a Python `predict` call can return: the three strategies are
dynamically typed, and `AgglomerativeClusteringOptimal.predict` returns a
fitted model object rather than a label array. -/
inductive AggSKModelState : Type
  /-- An `AgglomerativeClustering` estimator: its `n_clusters` parameter
  and, once fitted, its `labels_` attribute. -/
  | mk (n_clusters : ℕ) (labelsFitted : Option (List ℕ))
deriving DecidableEq

/-- The `n_clusters` parameter of an `AgglomerativeClustering` object. -/
def AggSKModelState.n_clusters : AggSKModelState → ℕ
  | .mk k _ => k

/-- The fitted `labels_` attribute (`none` before the first `fit`). -/
def AggSKModelState.labelsFitted : AggSKModelState → Option (List ℕ)
  | .mk _ l => l

/-- Result of a dynamically typed Python `predict` call. -/
inductive PredictResult : Type
  /-- A numpy label array (what `KMeans.predict`/`GMM.predict` return). -/
  | labels (ls : List ℕ)
  /-- A fitted model object (what `AgglomerativeClusteringOptimal.predict`
  returns, since it ends in `return self.model.fit(X)`). -/
  | model (m : AggSKModelState)
deriving DecidableEq

/-- Test whether a `predict` result is a label array. -/
def PredictResult.isLabelArray : PredictResult → Bool
  | .labels _ => true
  | .model _ => false

/-- A fitted scikit-learn `KMeans` estimator, determined by its
parameters and training data (its centroids are a deterministic function
of these given the fixed seed). -/
structure KMeansModel where
  n_clusters : ℕ
  random_state : ℕ
  trainData : Mat
deriving DecidableEq

/-- A fitted scikit-learn `GaussianMixture` estimator. -/
structure GMMModel where
  n_components : ℕ
  random_state : ℕ
  trainData : Mat
deriving DecidableEq

/-- Oracle for the external clustering libraries: deterministic functions
standing for the fitted estimators of scikit-learn and the yellowbrick
elbow visualizer.  All are functions of the hyperparameters, the seed and
the data, which is exactly the determinism contract the spec assigns to
these collaborators. -/
structure ClusterOracle where
  /-- `KElbowVisualizer(...).elbow_value_` for `k in (2, max_clusters)`:
  `none` models yellowbrick finding no elbow (attribute is `None`). -/
  kmeansElbow : ℕ → ℕ → Mat → Option ℕ
  /-- Labels of `KMeans(k, random_state).fit(train).predict(x)`. -/
  kmeansPredict : ℕ → ℕ → Mat → Mat → List ℕ
  /-- `GaussianMixture(n, random_state).fit(x).aic(x)`. -/
  gmmAIC : ℕ → ℕ → Mat → ℚ
  /-- `GaussianMixture(n, random_state).fit(x).bic(x)`. -/
  gmmBIC : ℕ → ℕ → Mat → ℚ
  /-- Labels of `GaussianMixture(n, random_state).fit(train).predict(x)`. -/
  gmmPredict : ℕ → ℕ → Mat → Mat → List ℕ
  /-- `AgglomerativeClustering(k).fit(x).labels_`. -/
  aggLabels : ℕ → Mat → List ℕ

/-- The repository's unfitted-model error message (`function_cluster.py`,
raised identically in all three `predict` methods). -/
def unfittedMsg : String :=
  "El modelo debe ser ajustado antes de hacer predicciones. Llama a fit(X) primero."

/-- State of a `KMeansClustering` object (`function_cluster.py` lines
8-27): constructor arguments plus the two fields initialized to `None`. -/
structure KMeansClustering where
  max_clusters : ℕ
  random_state : ℕ
  n_clusters : Option ℕ
  optimal_clusters : Option ℕ
  kmeans : Option KMeansModel
deriving DecidableEq

/-- `KMeansClustering.__init__` with the source's default arguments
(`max_clusters=10, random_state=42, n_clusters=None`). -/
def KMeansClustering.init (n_clusters : Option ℕ) : KMeansClustering :=
  { max_clusters := 10, random_state := 42, n_clusters := n_clusters,
    optimal_clusters := none, kmeans := none }

/-- `KMeansClustering.fit` (`function_cluster.py` lines 28-58): if
`n_clusters is None`, select the count by the elbow visualizer, else use
it verbatim; then fit a fresh `KMeans` with that count.  Library
validation is embedded: parameter validation of a non-positive count,
NaN rejection, and the `n_samples >= n_clusters` requirement. -/
def KMeansClustering.fit (o : ClusterOracle) (s : KMeansClustering) (x : OMat) :
    Except PyErr KMeansClustering :=
  match s.n_clusters with
  | none =>
    match denan x with
    | none => .error .inputNaN
    | some m =>
      match o.kmeansElbow s.max_clusters s.random_state m with
      | none => .error .noneCount
      | some opt =>
        if opt < 1 then .error .invalidClusterCount
        else if m.length < opt then .error .tooFewSamples
        else .ok { s with optimal_clusters := some opt,
                          kmeans := some ⟨opt, s.random_state, m⟩ }
  | some k =>
    if k < 1 then .error .invalidClusterCount
    else
      match denan x with
      | none => .error .inputNaN
      | some m =>
        if m.length < k then .error .tooFewSamples
        else .ok { s with optimal_clusters := some k,
                          kmeans := some ⟨k, s.random_state, m⟩ }

/-- `KMeansClustering.predict` (lines 60-74): raises the unfitted-model
`ValueError` when `self.kmeans is None`, otherwise returns the fitted
estimator's labels; the object state is returned alongside (predicting
never mutates it). -/
def KMeansClustering.predict (o : ClusterOracle) (s : KMeansClustering) (x : OMat) :
    Except PyErr PredictResult × KMeansClustering :=
  match s.kmeans with
  | none => (.error (.valueError unfittedMsg), s)
  | some m =>
    match denan x with
    | none => (.error .inputNaN, s)
    | some mx =>
      (.ok (.labels (o.kmeansPredict m.n_clusters m.random_state m.trainData mx)), s)

/-- `KMeansClustering.fit_predict` (lines 76-89): `self.fit(X)` then
`return self.predict(X)`. -/
def KMeansClustering.fit_predict (o : ClusterOracle) (s : KMeansClustering) (x : OMat) :
    Except PyErr PredictResult × KMeansClustering :=
  match KMeansClustering.fit o s x with
  | .error e => (.error e, s)
  | .ok s' => KMeansClustering.predict o s' x

/-- State of a `GMMClustering` object (`function_cluster.py` lines
104-123). -/
structure GMMClustering where
  max_components : ℕ
  criterion : String
  n_components : Option ℕ
  random_state : ℕ
  optimal_components : Option ℕ
  gmm : Option GMMModel
deriving DecidableEq

/-- `GMMClustering.__init__` with the source defaults
(`max_components=10, criterion='bic', n_components=None, random_state=42`). -/
def GMMClustering.init (n_components : Option ℕ) : GMMClustering :=
  { max_components := 10, criterion := "bic", n_components := n_components,
    random_state := 42, optimal_components := none, gmm := none }

/-- The criterion value recorded for a single sweep iteration of
`GMMClustering.fit`: first the mixture is fitted (which fails when the
data has fewer samples than components), then the criterion is computed,
with the repository's `ValueError` for an unknown criterion string. -/
def gmmSweepScore (o : ClusterOracle) (crit : String) (seed n : ℕ) (m : Mat) :
    Except PyErr ℚ :=
  if m.length < n then .error .tooFewSamples
  else if crit = "aic" then .ok (o.gmmAIC n seed m)
  else if crit = "bic" then .ok (o.gmmBIC n seed m)
  else .error .invalidCriterion

/-- The criterion value for component count `n`, as a total function
(defined whenever `gmmSweepScore` succeeds). -/
def critScore (o : ClusterOracle) (crit : String) (seed n : ℕ) (m : Mat) : ℚ :=
  if crit = "aic" then o.gmmAIC n seed m else o.gmmBIC n seed m

/-- `GMMClustering.fit` (lines 125-155): when `n_components is None`,
sweep `range(1, max_components + 1)`, collect the criterion value of a
mixture fitted per count, select `np.argmin(criterions) + 1`; otherwise
use the explicit count.  Finally fit the mixture with the chosen count. -/
def GMMClustering.fit (o : ClusterOracle) (s : GMMClustering) (x : OMat) :
    Except PyErr GMMClustering :=
  match s.n_components with
  | none =>
    match denan x with
    | none => .error .inputNaN
    | some m =>
      match exceptMapList
          (fun n => gmmSweepScore o s.criterion s.random_state n m)
          (List.range' 1 s.max_components) with
      | .error e => .error e
      | .ok criterions =>
        match listArgmin criterions with
        | none => .error .argminEmpty
        | some i =>
          if m.length < i + 1 then .error .tooFewSamples
          else .ok { s with optimal_components := some (i + 1),
                            gmm := some ⟨i + 1, s.random_state, m⟩ }
  | some k =>
    if k < 1 then .error .invalidClusterCount
    else
      match denan x with
      | none => .error .inputNaN
      | some m =>
        if m.length < k then .error .tooFewSamples
        else .ok { s with optimal_components := some k,
                          gmm := some ⟨k, s.random_state, m⟩ }

/-- `GMMClustering.predict` (lines 157-171): unfitted-model `ValueError`
when `self.gmm is None`, otherwise the fitted mixture's labels; never
mutates the object. -/
def GMMClustering.predict (o : ClusterOracle) (s : GMMClustering) (x : OMat) :
    Except PyErr PredictResult × GMMClustering :=
  match s.gmm with
  | none => (.error (.valueError unfittedMsg), s)
  | some m =>
    match denan x with
    | none => (.error .inputNaN, s)
    | some mx =>
      (.ok (.labels (o.gmmPredict m.n_components m.random_state m.trainData mx)), s)

/-- `GMMClustering.fit_predict` (lines 173-186): `self.fit(X)` then
`return self.predict(X)`. -/
def GMMClustering.fit_predict (o : ClusterOracle) (s : GMMClustering) (x : OMat) :
    Except PyErr PredictResult × GMMClustering :=
  match GMMClustering.fit o s x with
  | .error e => (.error e, s)
  | .ok s' => GMMClustering.predict o s' x

/-- State of an `AgglomerativeClusteringOptimal` object
(`function_cluster.py` lines 201-216). -/
structure AgglomerativeClusteringOptimal where
  max_clusters : ℕ
  n_clusters : Option ℕ
  optimal_clusters : Option ℕ
  model : Option AggSKModelState
deriving DecidableEq

/-- `AgglomerativeClusteringOptimal.__init__` with the source defaults
(`max_clusters=10, n_clusters=None`). -/
def AgglomerativeClusteringOptimal.init (n_clusters : Option ℕ) :
    AgglomerativeClusteringOptimal :=
  { max_clusters := 10, n_clusters := n_clusters,
    optimal_clusters := none, model := none }

/-- Fitting an `AgglomerativeClustering` estimator (library call): sets
`labels_` from the partition oracle; fails when the data has fewer
samples than clusters (scikit-learn validation). -/
def AggSKModelState.fitSK (o : ClusterOracle) (m : AggSKModelState) (data : Mat) :
    Except PyErr AggSKModelState :=
  if m.n_clusters < 1 then .error .invalidClusterCount
  else if data.length < m.n_clusters then .error .tooFewSamples
  else .ok (.mk m.n_clusters (some (o.aggLabels m.n_clusters data)))

/-- The rows of `data` whose label equals `i`: numpy boolean-mask
indexing `data[cluster_labels == i]`. -/
def rowsWithLabel (data : Mat) (labels : List ℕ) (i : ℕ) : Mat :=
  (data.zip labels).filterMap (fun p => if p.2 = i then some p.1 else none)

/-- One entry of the WCSS list of
`AgglomerativeClusteringOptimal.calculate_wcss` (lines 229-241), for a
given cluster count: centroids are recomputed from the agglomerative
partition, and the entry is
`sum(np.linalg.norm(data[labels == i] - centroids[i]) ** 2)`. -/
def wcssEntry (o : ClusterOracle) (data : Mat) (k : ℕ) : ℚ :=
  ((List.range k).map (fun i =>
    frobSq ((rowsWithLabel data (o.aggLabels k data) i).map
      (fun r => vsub r (meanAxis0 (rowsWithLabel data (o.aggLabels k data) i)))))).sum

/-- `AgglomerativeClusteringOptimal.calculate_wcss` (lines 218-242):
the WCSS value for each `n_clusters in range(1, max_clusters + 1)`,
failing when a sweep iteration cannot fit (too few samples). -/
def AgglomerativeClusteringOptimal.calculate_wcss (o : ClusterOracle)
    (s : AgglomerativeClusteringOptimal) (data : Mat) : Except PyErr (List ℚ) :=
  exceptMapList (fun k =>
    if data.length < k then .error .tooFewSamples
    else .ok (wcssEntry o data k)) (List.range' 1 s.max_clusters)

/-- `AgglomerativeClusteringOptimal.find_optimal_clusters` (lines
244-259): `np.argmin(np.diff(np.diff(wcss))) + 2`, where `np.argmin`
raises on an empty sequence. -/
def AgglomerativeClusteringOptimal.find_optimal_clusters (o : ClusterOracle)
    (s : AgglomerativeClusteringOptimal) (data : Mat) : Except PyErr ℕ :=
  match AgglomerativeClusteringOptimal.calculate_wcss o s data with
  | .error e => .error e
  | .ok wcss =>
    match listArgmin (listDiff (listDiff wcss)) with
    | none => .error .argminEmpty
    | some i => .ok (i + 2)

/-- `AgglomerativeClusteringOptimal.fit` (lines 261-275): select the
count by the elbow rule when `n_clusters is None`, then fit a fresh
`AgglomerativeClustering` with it. -/
def AgglomerativeClusteringOptimal.fit (o : ClusterOracle)
    (s : AgglomerativeClusteringOptimal) (x : OMat) :
    Except PyErr AgglomerativeClusteringOptimal :=
  match s.n_clusters with
  | none =>
    match denan x with
    | none => .error .inputNaN
    | some m =>
      match AgglomerativeClusteringOptimal.find_optimal_clusters o s m with
      | .error e => .error e
      | .ok opt =>
        match AggSKModelState.fitSK o (.mk opt none) m with
        | .error e => .error e
        | .ok fitted =>
          .ok { s with optimal_clusters := some opt, model := some fitted }
  | some k =>
    if k < 1 then .error .invalidClusterCount
    else
      match denan x with
      | none => .error .inputNaN
      | some m =>
        match AggSKModelState.fitSK o (.mk k none) m with
        | .error e => .error e
        | .ok fitted =>
          .ok { s with optimal_clusters := some k, model := some fitted }

/-- `AgglomerativeClusteringOptimal.predict` (lines 277-290): the
unfitted-model `ValueError` when `self.model is None`; otherwise
`return self.model.fit(X)` — the stored estimator is RE-FITTED on the
argument and the fitted model object itself is returned (not a label
array), with the mutated estimator stored back in the object. -/
def AgglomerativeClusteringOptimal.predict (o : ClusterOracle)
    (s : AgglomerativeClusteringOptimal) (x : OMat) :
    Except PyErr PredictResult × AgglomerativeClusteringOptimal :=
  match s.model with
  | none => (.error (.valueError unfittedMsg), s)
  | some m =>
    match denan x with
    | none => (.error .inputNaN, s)
    | some mx =>
      match AggSKModelState.fitSK o m mx with
      | .error e => (.error e, s)
      | .ok m' => (.ok (.model m'), { s with model := some m' })

/-- `AgglomerativeClusteringOptimal.fit_predict` (lines 292-304):
`self.fit(X)` then `return self.predict(X).labels_` — the label array is
extracted from the model object `predict` returns; `.labels_` on a
non-model value would be an `AttributeError`. -/
def AgglomerativeClusteringOptimal.fit_predict (o : ClusterOracle)
    (s : AgglomerativeClusteringOptimal) (x : OMat) :
    Except PyErr (List ℕ) × AgglomerativeClusteringOptimal :=
  match AgglomerativeClusteringOptimal.fit o s x with
  | .error e => (.error e, s)
  | .ok s' =>
    match AgglomerativeClusteringOptimal.predict o s' x with
    | (.error e, s'') => (.error e, s'')
    | (.ok (.model m), s'') =>
      match m.labelsFitted with
      | some ls => (.ok ls, s'')
      | none => (.error .attributeError, s'')
    | (.ok (.labels _), s'') => (.error .attributeError, s'')

/-- External inputs of the `EfficiencyRatioAnalysis` pipeline: the MT5
price feed (per symbol, already restricted to the requested date range
and timeframe) and the `pandas_ta.er` efficiency-ratio statistic, both
collaborators the spec excludes from the core.  `er` maps a close-price
series and a lookback length to the rolling efficiency-ratio series of
the same length, with `none` at undefined (NaN) positions. -/
structure ERInput where
  priceData : String → List (ℕ × ℚ)
  er : List ℚ → ℕ → List (Option ℚ)

/-- Index lookup of a timestamp in one symbol's series (first match). -/
def lookupTime (t : ℕ) : List (ℕ × ℚ) → Option ℚ
  | [] => none
  | p :: ps => if p.1 = t then some p.2 else lookupTime t ps

/-- Insert a timestamp into a sorted list of timestamps. -/
def insertTime (t : ℕ) : List ℕ → List ℕ
  | [] => [t]
  | u :: us => if t ≤ u then t :: u :: us else u :: insertTime t us

/-- Sort a list of timestamps ascending (the order of a pandas
`DatetimeIndex` union). -/
def sortTimes : List ℕ → List ℕ
  | [] => []
  | t :: ts => insertTime t (sortTimes ts)

/-- The sorted union of all symbols' timestamps: the index produced by
`pd.concat(df_tickers, axis=1)` (outer join on the datetime index). -/
def unionTimes (inp : ERInput) (tickers : List String) : List ℕ :=
  sortTimes ((tickers.map (fun tk => (inp.priceData tk).map (·.1))).flatten.dedup)

/-- `EfficiencyRatioAnalysis.load_data` (`efr_classification.py` lines
54-73): per-symbol close series are column-concatenated on the timestamp
index and `dropna` removes every TIME row at which any symbol is missing.
`pd.concat` of an empty list raises "No objects to concatenate".  The
result is a list of (timestamp, one close per ticker) rows. -/
def load_data (inp : ERInput) (tickers : List String) :
    Except PyErr (List (ℕ × List ℚ)) :=
  if tickers.isEmpty then .error .concatEmpty
  else .ok ((unionTimes inp tickers).filterMap (fun t =>
    match optionMapList (fun tk => lookupTime t (inp.priceData tk)) tickers with
    | some vs => some (t, vs)
    | none => none))

/-- The aligned close series of the ticker at column index `j`. -/
def tickerColumn (dft : List (ℕ × List ℚ)) (j : ℕ) : List ℚ :=
  dft.map (fun r => r.2.getD j 0)

/-- `EfficiencyRatioAnalysis.calculate_er` (lines 75-98): for each
`length in range(init_period, end_period)` compute each ticker's rolling
efficiency-ratio series, take its NaN-skipping mean, round to 5 decimal
places, and concatenate per-period columns.  `pd.concat` of the empty
list of per-period frames (when `init_period >= end_period`) raises.
Rows are tickers in order; values are per-period means, `none` = NaN. -/
def calculate_er (inp : ERInput) (tickers : List String)
    (dft : List (ℕ × List ℚ)) (init_period end_period : ℕ) :
    Except PyErr (List (String × List (Option ℚ))) :=
  let periods := List.range' init_period (end_period - init_period)
  if periods.isEmpty then .error .concatEmpty
  else .ok (tickers.enum.map (fun p =>
    (p.2, periods.map (fun len =>
      (meanSkipNA (inp.er (tickerColumn dft p.1) len)).map round5))))

/-- The values of column `c` of the feature matrix. -/
def colVals (dfe : List (String × List (Option ℚ))) (c : ℕ) : List (Option ℚ) :=
  dfe.map (fun r => r.2.getD c none)

/-- The defined (non-NaN) values of column `c`. -/
def colDefined (dfe : List (String × List (Option ℚ))) (c : ℕ) : List ℚ :=
  (colVals dfe c).reduceOption

/-- NaN-skipping column minimum (`df.min()`); NaN when all-NaN. -/
def colMin (dfe : List (String × List (Option ℚ))) (c : ℕ) : Option ℚ :=
  match colDefined dfe c with
  | [] => none
  | v :: vs => some (vs.foldl min v)

/-- NaN-skipping column maximum (`df.max()`); NaN when all-NaN. -/
def colMax (dfe : List (String × List (Option ℚ))) (c : ℕ) : Option ℚ :=
  match colDefined dfe c with
  | [] => none
  | v :: vs => some (vs.foldl max v)

/-- One entry of `(df_er - df_er.min()) / (df_er.max() - df_er.min())`
(lines 110-111): float semantics make the result NaN when the entry is
NaN or when the column is constant (0/0); no detection or error. -/
def normEntry (dfe : List (String × List (Option ℚ))) (c : ℕ) (e : Option ℚ) :
    Option ℚ :=
  match e, colMin dfe c, colMax dfe c with
  | some x, some mn, some mx =>
    if mx = mn then none else some ((x - mn) / (mx - mn))
  | _, _, _ => none

/-- The min-max normalized feature matrix `df_er_norm` passed to the
clustering strategy. -/
def normalizeDf (dfe : List (String × List (Option ℚ))) : OMat :=
  dfe.map (fun r => r.2.enum.map (fun p => normEntry dfe p.1 p.2))

/-- The `KMeansClustering(n_clusters=self.n_clusters)` instance built at
line 113 (all other constructor arguments take their defaults). -/
def pipelineKMeans (n_clusters : ℕ) : KMeansClustering :=
  KMeansClustering.init (some n_clusters)

/-- `EfficiencyRatioAnalysis.tickers_clusters_er` (lines 100-122):
normalize the feature matrix, run `KMeansClustering.fit_predict`,
assign the labels as a new `cluster_label` column (pandas raises on a
length mismatch), compute `mean_er` as the row mean of all columns but
the last (`iloc[:, :-1]`, excluding the appended label), and emit the
`(symbol, mean_er, cluster_label)` table. -/
def tickers_clusters_er (o : ClusterOracle) (n_clusters : ℕ)
    (dfe : List (String × List (Option ℚ))) :
    Except PyErr (List (String × Option ℚ × ℕ)) :=
  match (KMeansClustering.fit_predict o (pipelineKMeans n_clusters) (normalizeDf dfe)).1 with
  | .error e => .error e
  | .ok (.model _) => .error .attributeError
  | .ok (.labels ls) =>
    if ls.length = dfe.length then
      .ok ((dfe.zip ls).map (fun p =>
        (p.1.1, meanSkipNA ((p.1.2 ++ [some ((p.2 : ℚ))]).dropLast), p.2)))
    else .error .lengthMismatch

/-- The `EfficiencyRatioAnalysis.__init__` pipeline (lines 50-52):
`load_data`, then `calculate_er`, then `tickers_clusters_er`, each
consuming the previous result; any exception aborts the run. -/
def runAnalysis (o : ClusterOracle) (inp : ERInput) (tickers : List String)
    (init_period end_period n_clusters : ℕ) :
    Except PyErr (List (String × Option ℚ × ℕ)) :=
  match load_data inp tickers with
  | .error e => .error e
  | .ok dft =>
    match calculate_er inp tickers dft init_period end_period with
    | .error e => .error e
    | .ok dfe => tickers_clusters_er o n_clusters dfe

/-- The spec's two-step semantics for the centroid strategy: the result
of `fit(X)` followed by `predict(X)` on the same input. -/
def kmTwoStep (o : ClusterOracle) (s : KMeansClustering) (x : OMat) :
    Except PyErr PredictResult :=
  match KMeansClustering.fit o s x with
  | .error e => .error e
  | .ok s' => (KMeansClustering.predict o s' x).1

/-- The spec's two-step semantics for the mixture strategy. -/
def gmmTwoStep (o : ClusterOracle) (s : GMMClustering) (x : OMat) :
    Except PyErr PredictResult :=
  match GMMClustering.fit o s x with
  | .error e => .error e
  | .ok s' => (GMMClustering.predict o s' x).1

/-- The spec's two-step semantics for the hierarchical strategy. -/
def aggTwoStep (o : ClusterOracle) (s : AgglomerativeClusteringOptimal) (x : OMat) :
    Except PyErr PredictResult :=
  match AgglomerativeClusteringOptimal.fit o s x with
  | .error e => .error e
  | .ok s' => (AgglomerativeClusteringOptimal.predict o s' x).1

/-- Python attribute access `result.labels_` on a `predict` result:
defined on a fitted model object, `AttributeError` on anything else. -/
def labelsAttr : Except PyErr PredictResult → Except PyErr (List ℕ)
  | .error e => .error e
  | .ok (.model m) =>
    match m.labelsFitted with
    | some ls => .ok ls
    | none => .error .attributeError
  | .ok (.labels _) => .error .attributeError

/-- Whether a `predict` result is a successfully returned label array. -/
def isOkLabelArray : Except PyErr PredictResult → Bool
  | .ok (.labels _) => true
  | _ => false

/-- Whether an `Except` computation succeeded. -/
def exceptOk {α : Type} : Except PyErr α → Bool
  | .ok _ => true
  | .error _ => false

/-- The spec's reading of WCSS: the sum over the data rows of the squared
distance from each row to the centroid of its own cluster (centroids
recomputed from the partition). -/
def wcssRowwise (data : Mat) (labels : List ℕ) : ℚ :=
  ((data.zip labels).map
    (fun p => sqDist p.1 (meanAxis0 (rowsWithLabel data labels p.2)))).sum

/-- A concrete deterministic oracle used to instantiate hypotheses of the
theorems below on closed inputs: each estimator assigns row `i` the label
`i mod k`, the elbow visualizer always reports 2, and the information
criteria grow with the component count (AIC minimal at 1 component). -/
def oracle0 : ClusterOracle :=
  { kmeansElbow := fun _ _ _ => some 2,
    kmeansPredict := fun k _ _ x => (List.range x.length).map (fun i => i % k),
    gmmAIC := fun n _ _ => (n : ℚ),
    gmmBIC := fun n _ _ => (n : ℚ) + 1,
    gmmPredict := fun n _ _ x => (List.range x.length).map (fun i => i % n),
    aggLabels := fun k m => (List.range m.length).map (fun i => i % k) }

/-- A concrete external-data instance: symbols `A` and `B` have four
hourly closes at timestamps 0..3; symbol `S` has only the first two. The
efficiency-ratio statistic is a concrete series of the right rolling
shape: undefined for the first `len` positions, defined afterwards. -/
def inp0 : ERInput :=
  { priceData := fun tk =>
      if tk = "A" then [(0, 1), (1, 2), (2, 3), (3, 4)]
      else if tk = "B" then [(0, 2), (1, 4), (2, 6), (3, 8)]
      else if tk = "S" then [(0, 2), (1, 4)]
      else [],
    er := fun s len => (List.range s.length).map (fun i =>
      if len ≤ i then some (s.getD i 0 / (len : ℚ)) else none) }

/-- A concrete NaN-free 3-row data matrix (as an `OMat`). -/
def x3 : OMat :=
  [[some 0, some 0], [some 1, some 1], [some 4, some 5]]

/-- The same matrix with NaN stripped. -/
def m3 : Mat := [[0, 0], [1, 1], [4, 5]]

/-- A concrete fitted `KMeansClustering` state (as produced by
`fit` on `x3` with an explicit count of 2). -/
def sk0 : KMeansClustering :=
  { max_clusters := 10, random_state := 42, n_clusters := some 2,
    optimal_clusters := some 2, kmeans := some ⟨2, 42, m3⟩ }

/-- A concrete fitted `GMMClustering` state. -/
def sg0 : GMMClustering :=
  { max_components := 10, criterion := "bic", n_components := some 2,
    random_state := 42, optimal_components := some 2, gmm := some ⟨2, 42, m3⟩ }

/-- A concrete fitted `AgglomerativeClusteringOptimal` state: fitted on a
single-row matrix, so that re-fitting on `x3` visibly changes `labels_`. -/
def sa0 : AgglomerativeClusteringOptimal :=
  { max_clusters := 10, n_clusters := some 1,
    optimal_clusters := some 1, model := some (.mk 1 (some [0])) }

/-- The concrete feature matrix for the C3 counterexample: column 0 is
constant (both entries 1). -/
def dfeConst : List (String × List (Option ℚ)) :=
  [("A", [some 1, some 2]), ("B", [some 1, some 3])]

/-- A concrete NaN-free 10-row, 1-column data matrix. -/
def x10 : OMat := (List.range 10).map (fun i => [some ((i : ℚ))])

/-- The same matrix with NaN stripped. -/
def m10 : Mat := (List.range 10).map (fun i => [((i : ℚ))])

/-- A strategy object with `max_clusters = 2`, for the C8
counterexample. -/
def saMax2 : AgglomerativeClusteringOptimal :=
  { max_clusters := 2, n_clusters := none, optimal_clusters := none,
    model := none }

/-- The feature matrix produced by the concrete successful run (the
single period 2 over four aligned closes of symbols `A` and `B`). -/
def dfe9 : List (String × List (Option ℚ)) :=
  [("A", [some (7/4)]), ("B", [some (7/2)])]

/-- The aggregated table of the concrete successful run. -/
def t9 : List (String × Option ℚ × ℕ) :=
  [("A", some (7/4), 0), ("B", some (7/2), 1)]

/-- The aligned close-price table of the concrete successful run. -/
def dftW : List (ℕ × List ℚ) :=
  [(0, [1, 2]), (1, [2, 4]), (2, [3, 6]), (3, [4, 8])]

theorem listArgmin_isSome : ∀ (l : List ℚ), l ≠ [] → (listArgmin l).isSome
  | [], h => absurd rfl h
  | [_], _ => rfl
  | x :: y :: xs, _ => by
    unfold listArgmin
    cases h : listArgmin (y :: xs) with
    | none => rfl
    | some j =>
      dsimp only
      split <;> rfl

theorem listArgmin_lt_length :
    ∀ (l : List ℚ) (k : ℕ), listArgmin l = some k → k < l.length
  | [], _, h => by simp [listArgmin] at h
  | [_], k, h => by
    simp only [listArgmin, Option.some.injEq] at h
    subst h
    simp
  | x :: y :: xs, k, h => by
    unfold listArgmin at h
    cases hrec : listArgmin (y :: xs) with
    | none =>
      rw [hrec] at h
      have hk := Option.some.inj h
      subst hk
      simp
    | some j =>
      rw [hrec] at h
      dsimp only at h
      by_cases hle : x ≤ (y :: xs).getD j 0
      · rw [if_pos hle] at h
        have hk := Option.some.inj h
        subst hk
        simp
      · rw [if_neg hle] at h
        have hj := listArgmin_lt_length (y :: xs) j hrec
        have hk := Option.some.inj h
        subst hk
        simp only [List.length_cons] at hj ⊢
        omega

theorem listArgmin_min :
    ∀ (l : List ℚ) (k : ℕ), listArgmin l = some k →
      ∀ j, j < l.length → l.getD k 0 ≤ l.getD j 0
  | [], _, h => by simp [listArgmin] at h
  | [x], k, h => by
    simp only [listArgmin, Option.some.injEq] at h
    subst h
    intro j hj
    match j with
    | 0 => exact le_refl _
    | j + 1 => simp at hj
  | x :: y :: xs, k, h => by
    unfold listArgmin at h
    cases hrec : listArgmin (y :: xs) with
    | none => exact absurd (listArgmin_isSome (y :: xs) (by simp)) (by simp [hrec])
    | some j0 =>
      rw [hrec] at h
      dsimp only at h
      have ihmin := listArgmin_min (y :: xs) j0 hrec
      by_cases hle : x ≤ (y :: xs).getD j0 0
      · rw [if_pos hle] at h
        have hk := Option.some.inj h
        subst hk
        intro j hj
        match j with
        | 0 => exact le_refl _
        | j + 1 =>
          have hj' : j < (y :: xs).length := by
            simp only [List.length_cons] at hj ⊢
            omega
          calc (x :: y :: xs).getD 0 0 = x := rfl
            _ ≤ (y :: xs).getD j0 0 := hle
            _ ≤ (y :: xs).getD j 0 := ihmin j hj'
            _ = (x :: y :: xs).getD (j + 1) 0 := rfl
      · rw [if_neg hle] at h
        have hk := Option.some.inj h
        subst hk
        intro j hj
        have hx : (y :: xs).getD j0 0 ≤ x := le_of_lt (lt_of_not_le hle)
        match j with
        | 0 => exact hx
        | j + 1 =>
          have hj' : j < (y :: xs).length := by
            simp only [List.length_cons] at hj ⊢
            omega
          exact ihmin j hj'

theorem listArgmin_first :
    ∀ (l : List ℚ) (k : ℕ), listArgmin l = some k →
      ∀ j, j < k → l.getD k 0 < l.getD j 0
  | [], _, h => by simp [listArgmin] at h
  | [x], k, h => by
    simp only [listArgmin, Option.some.injEq] at h
    subst h
    intro j hj
    exact absurd hj (Nat.not_lt_zero j)
  | x :: y :: xs, k, h => by
    unfold listArgmin at h
    cases hrec : listArgmin (y :: xs) with
    | none => exact absurd (listArgmin_isSome (y :: xs) (by simp)) (by simp [hrec])
    | some j0 =>
      rw [hrec] at h
      dsimp only at h
      by_cases hle : x ≤ (y :: xs).getD j0 0
      · rw [if_pos hle] at h
        have hk := Option.some.inj h
        subst hk
        intro j hj
        exact absurd hj (Nat.not_lt_zero j)
      · rw [if_neg hle] at h
        have hk := Option.some.inj h
        subst hk
        intro j hj
        have hfirst := listArgmin_first (y :: xs) j0 hrec
        match j with
        | 0 => exact lt_of_not_le hle
        | j + 1 =>
          have hjj : j < j0 := Nat.lt_of_succ_lt_succ hj
          exact hfirst j hjj


theorem exceptMapList_ok_of_forall {a b : Type} (f : a → Except PyErr b)
    (g : a → b) :
    ∀ (l : List a), (∀ x ∈ l, f x = .ok (g x)) → exceptMapList f l = .ok (l.map g)
  | [], _ => rfl
  | x :: l, h => by
    have hx : f x = .ok (g x) := h x (List.mem_cons_self x l)
    have hl := exceptMapList_ok_of_forall f g l
      (fun y hy => h y (List.mem_cons_of_mem x hy))
    unfold exceptMapList
    rw [hx, hl]
    rfl

theorem optionMapList_some_of_forall {a b : Type} (f : a → Option b)
    (g : a → b) :
    ∀ (l : List a), (∀ x ∈ l, f x = some (g x)) → optionMapList f l = some (l.map g)
  | [], _ => rfl
  | x :: l, h => by
    have hx : f x = some (g x) := h x (List.mem_cons_self x l)
    have hl := optionMapList_some_of_forall f g l
      (fun y hy => h y (List.mem_cons_of_mem x hy))
    unfold optionMapList
    rw [hx, hl]
    rfl

theorem optionMapList_id_some : ∀ (r : List (Option ℚ)) (v : List ℚ),
    optionMapList id r = some v → r = v.map some
  | [], v, h => by
    simp only [optionMapList, Option.some.injEq] at h
    rw [← h]
    rfl
  | e :: r, v, h => by
    unfold optionMapList at h
    cases e with
    | none => exact absurd h (by simp)
    | some q =>
      cases hrec : optionMapList id r with
      | none => rw [hrec] at h; exact absurd h (by simp)
      | some w =>
        rw [hrec] at h
        simp only [id, Option.some.injEq] at h
        have hr := optionMapList_id_some r w hrec
        rw [← h, List.map_cons, ← hr]

theorem optionMapList_id_allSome : ∀ (v : List ℚ),
    optionMapList id (v.map some) = some v
  | [] => rfl
  | q :: v => by
    unfold optionMapList
    rw [List.map_cons]
    simp only [id]
    rw [optionMapList_id_allSome v]

theorem denan_some : ∀ (x : OMat) (m : Mat),
    denan x = some m → x = m.map (fun r => r.map some)
  | [], m, h => by
    simp only [denan, optionMapList, Option.some.injEq] at h
    rw [← h]
    rfl
  | r :: x, m, h => by
    unfold denan optionMapList at h
    cases hr : optionMapList id r with
    | none => rw [hr] at h; exact absurd h (by simp)
    | some v =>
      rw [hr] at h
      cases hx : optionMapList (fun r => optionMapList id r) x with
      | none => rw [hx] at h; exact absurd h (by simp)
      | some w =>
        rw [hx] at h
        simp only [Option.some.injEq] at h
        have h1 := optionMapList_id_some r v hr
        have h2 := denan_some x w hx
        rw [← h, List.map_cons, ← h1, ← h2]

theorem denan_allSome (m : Mat) : denan (m.map (fun r => r.map some)) = some m := by
  unfold denan
  induction m with
  | nil => rfl
  | cons r x ih =>
    rw [List.map_cons]
    unfold optionMapList
    rw [optionMapList_id_allSome r]
    unfold denan at ih
    rw [ih]

theorem getD_map_range' (f : ℕ → ℚ) (a n j : ℕ) (h : j < n) :
    ((List.range' a n).map f).getD j 0 = f (a + j) := by
  have hlen : j < ((List.range' a n).map f).length := by
    simpa [List.length_map, List.length_range'] using h
  rw [List.getD_eq_getElem _ _ hlen]
  rw [List.getElem_map]
  congr 1
  rw [List.getElem_range']
  omega

theorem sum_map_add {a : Type} (f g : a → ℚ) :
    ∀ (l : List a), (l.map (fun x => f x + g x)).sum = (l.map f).sum + (l.map g).sum
  | [] => by simp
  | x :: l => by
    simp only [List.map_cons, List.sum_cons, sum_map_add f g l]
    ring

theorem sum_range_ite (x : ℚ) :
    ∀ (k c : ℕ), c < k →
      ((List.range k).map (fun i => if c = i then x else 0)).sum = x
  | 0, c, h => absurd h (Nat.not_lt_zero c)
  | k + 1, c, h => by
    rw [List.range_succ, List.map_append, List.sum_append]
    simp only [List.map_cons, List.map_nil, List.sum_cons, List.sum_nil]
    by_cases hc : c = k
    · subst hc
      have hz : ((List.range c).map (fun i => if c = i then x else 0)).sum = 0 := by
        rw [List.sum_eq_zero]
        intro y hy
        rw [List.mem_map] at hy
        obtain ⟨i, hi, hiy⟩ := hy
        rw [List.mem_range] at hi
        rw [← hiy, if_neg (Nat.ne_of_gt hi)]
      rw [hz, if_pos rfl]
      ring
    · have hck : c < k := by omega
      rw [sum_range_ite x k c hck, if_neg hc]
      ring

theorem listDiff_length (l : List ℚ) : (listDiff l).length = l.length - 1 := by
  unfold listDiff
  rw [List.length_zipWith, List.length_tail]
  omega

theorem optionMapList_none_of_mem {a b : Type} (f : a → Option b) :
    ∀ (l : List a) (x : a), x ∈ l → f x = none → optionMapList f l = none
  | [], x, hx, _ => absurd hx (List.not_mem_nil x)
  | y :: l, x, hx, hfx => by
    unfold optionMapList
    rcases List.mem_cons.mp hx with h | h
    · rw [← h, hfx]
    · cases hfy : f y with
      | none => rfl
      | some v => rw [optionMapList_none_of_mem f l x h hfx]

theorem denan_none_of_entry (x : OMat) (r : List (Option ℚ)) (hr : r ∈ x)
    (hnone : none ∈ r) : denan x = none := by
  unfold denan
  refine optionMapList_none_of_mem _ x r hr ?_
  exact optionMapList_none_of_mem id r none hnone rfl

/-- C6: for each of the three strategy variants, `predict` on a
never-fitted strategy fails with the repository's precondition
`ValueError`, whose message names the missing `fit` call; the object
state is returned unchanged and no model is fitted to recover. -/
theorem C6_predict_unfitted (o : ClusterOracle) (sk : KMeansClustering)
    (sg : GMMClustering) (sa : AgglomerativeClusteringOptimal) (x : OMat)
    (hk : sk.kmeans = none) (hg : sg.gmm = none) (ha : sa.model = none) :
    KMeansClustering.predict o sk x = (.error (.valueError unfittedMsg), sk) ∧
    GMMClustering.predict o sg x = (.error (.valueError unfittedMsg), sg) ∧
    AgglomerativeClusteringOptimal.predict o sa x
      = (.error (.valueError unfittedMsg), sa) ∧
    (∃ pre post, unfittedMsg = pre ++ "fit" ++ post) := by
  refine ⟨?_, ?_, ?_,
    "El modelo debe ser ajustado antes de hacer predicciones. Llama a ",
    "(X) primero.", rfl⟩
  · unfold KMeansClustering.predict
    rw [hk]
  · unfold GMMClustering.predict
    rw [hg]
  · unfold AgglomerativeClusteringOptimal.predict
    rw [ha]

/-- Witness for C6 at the freshly constructed (hence unfitted) strategy
objects and a concrete matrix. -/
theorem C6_predict_unfitted_witness :
    (KMeansClustering.init (some 2)).kmeans = none ∧
    KMeansClustering.predict oracle0 (KMeansClustering.init (some 2)) x3
      = (.error (.valueError unfittedMsg), KMeansClustering.init (some 2)) :=
  ⟨rfl, (C6_predict_unfitted oracle0 (KMeansClustering.init (some 2))
    (GMMClustering.init (some 2)) (AgglomerativeClusteringOptimal.init (some 2))
    x3 rfl rfl rfl).1⟩

/-- C10: `predict` of the centroid and mixture variants is read-only on
the strategy object — the returned state is the input state, all fields
included, and a repeated call returns the same labels; the hierarchical
variant instead stores back the model re-fitted on the `predict`
argument, and concretely its state can change across a `predict` call. -/
theorem C10_predict_frame (o : ClusterOracle) (sk : KMeansClustering)
    (sg : GMMClustering) (x y : OMat) (mdl : KMeansModel) (mg : GMMModel)
    (hk : sk.kmeans = some mdl) (hg : sg.gmm = some mg)
    (sa : AgglomerativeClusteringOptimal) (ma : AggSKModelState)
    (ha : sa.model = some ma) (m : Mat) (hy : denan y = some m)
    (h1 : 1 ≤ ma.n_clusters) (hm : ma.n_clusters ≤ m.length) :
    (KMeansClustering.predict o sk x).2 = sk ∧
    (KMeansClustering.predict o (KMeansClustering.predict o sk x).2 x).1
      = (KMeansClustering.predict o sk x).1 ∧
    (GMMClustering.predict o sg x).2 = sg ∧
    (GMMClustering.predict o (GMMClustering.predict o sg x).2 x).1
      = (GMMClustering.predict o sg x).1 ∧
    (AgglomerativeClusteringOptimal.predict o sa y).2
      = { sa with model := some (.mk ma.n_clusters
            (some (o.aggLabels ma.n_clusters m))) } ∧
    (AgglomerativeClusteringOptimal.predict oracle0 sa0 x3).2 ≠ sa0 := by
  have hkm : ∀ s' : KMeansClustering, s'.kmeans = some mdl →
      (KMeansClustering.predict o s' x).2 = s' := by
    intro s' hs'
    unfold KMeansClustering.predict
    rw [hs']
    cases denan x <;> rfl
  refine ⟨hkm sk hk, ?_, ?_, ?_, ?_, by decide⟩
  · rw [hkm sk hk]
  · unfold GMMClustering.predict
    rw [hg]
    cases denan x <;> rfl
  · have : (GMMClustering.predict o sg x).2 = sg := by
      unfold GMMClustering.predict
      rw [hg]
      cases denan x <;> rfl
    rw [this]
  · unfold AgglomerativeClusteringOptimal.predict
    rw [ha, hy]
    dsimp only
    unfold AggSKModelState.fitSK
    rw [if_neg (show ¬ ma.n_clusters < 1 by omega)]
    rw [if_neg (show ¬ m.length < ma.n_clusters by omega)]

/-- Witness for C10 at concrete fitted strategy states. -/
theorem C10_predict_frame_witness :
    sk0.kmeans = some ⟨2, 42, m3⟩ ∧
    (KMeansClustering.predict oracle0 sk0 x3).2 = sk0 :=
  ⟨rfl, (C10_predict_frame oracle0 sk0 sg0 x3 x3 ⟨2, 42, m3⟩ ⟨2, 42, m3⟩
    rfl rfl sa0 (.mk 1 (some [0])) rfl m3 (by decide) (by decide) (by decide)).1⟩

/-- C1 counterexample: on a concrete input the hierarchical variant's
`fit` succeeds, yet `predict` after `fit` does NOT yield a label array
(it returns the re-fitted model object), falsifying the claim that for
all three variants `predict(X)` after `fit(X)` yields a label array. -/
theorem C1_cex_agg_predict_not_labels :
    exceptOk (AgglomerativeClusteringOptimal.fit oracle0
      (AgglomerativeClusteringOptimal.init (some 2)) x3) = true ∧
    isOkLabelArray (aggTwoStep oracle0
      (AgglomerativeClusteringOptimal.init (some 2)) x3) = false := by
  decide

/-- C1 amended: for the centroid and mixture variants `fit_predict`
returns exactly the two-step `fit`-then-`predict` result; for the
hierarchical variant `fit_predict` returns the `labels_` attribute of
the model object that the two-step `predict` yields — and that
two-step `predict` never returns a label array. -/
theorem C1_fit_predict_roundtrip (o : ClusterOracle) (sk : KMeansClustering)
    (sg : GMMClustering) (sa : AgglomerativeClusteringOptimal) (x : OMat)
    (ls : List ℕ) :
    (KMeansClustering.fit_predict o sk x).1 = kmTwoStep o sk x ∧
    (GMMClustering.fit_predict o sg x).1 = gmmTwoStep o sg x ∧
    (AgglomerativeClusteringOptimal.fit_predict o sa x).1
      = labelsAttr (aggTwoStep o sa x) ∧
    aggTwoStep o sa x ≠ .ok (.labels ls) := by
  refine ⟨?_, ?_, ?_, ?_⟩
  · unfold KMeansClustering.fit_predict kmTwoStep
    cases KMeansClustering.fit o sk x <;> rfl
  · unfold GMMClustering.fit_predict gmmTwoStep
    cases GMMClustering.fit o sg x <;> rfl
  · unfold AgglomerativeClusteringOptimal.fit_predict aggTwoStep
    cases AgglomerativeClusteringOptimal.fit o sa x with
    | error e => rfl
    | ok s' =>
      dsimp only
      rcases hp : AgglomerativeClusteringOptimal.predict o s' x with ⟨r, st⟩
      cases r with
      | error e => rfl
      | ok pr =>
        cases pr with
        | labels ls' => rfl
        | model mm =>
          dsimp only [labelsAttr]
          cases mm.labelsFitted <;> rfl
  · unfold aggTwoStep
    cases AgglomerativeClusteringOptimal.fit o sa x with
    | error e => simp
    | ok s' =>
      dsimp only
      unfold AgglomerativeClusteringOptimal.predict
      cases s'.model with
      | none => simp
      | some mm =>
        dsimp only
        cases denan x with
        | none => simp
        | some mx =>
          dsimp only
          cases AggSKModelState.fitSK o mm mx <;> simp

/-- Witness for C1 at concrete inputs: the centroid round-trip equality
instantiated on a fitted-from-scratch strategy and `x3`. -/
theorem C1_fit_predict_roundtrip_witness :
    (KMeansClustering.fit_predict oracle0 (KMeansClustering.init (some 2)) x3).1
      = kmTwoStep oracle0 (KMeansClustering.init (some 2)) x3 :=
  (C1_fit_predict_roundtrip oracle0 (KMeansClustering.init (some 2))
    (GMMClustering.init (some 2)) (AgglomerativeClusteringOptimal.init (some 2))
    x3 []).1

/-- C3 amended, part 1: when a feature-matrix column has equal NaN-
skipping maximum and minimum (in particular any constant column), EVERY
normalized entry of that column is NaN — the 0/0 division is not
detected and no named error is raised at normalization time; part 2: the
NaN-laden normalized matrix is handed to the clustering strategy, whose
library-side NaN validation then rejects it, so the pipeline fails with
the scikit-learn NaN error rather than a degenerate-column condition. -/
theorem C3_constant_column (o : ClusterOracle) (k c : ℕ)
    (dfe : List (String × List (Option ℚ))) (hk : 1 ≤ k)
    (hconst : colMax dfe c = colMin dfe c)
    (r0 : String × List (Option ℚ)) (hr0 : r0 ∈ dfe) (hc : c < r0.2.length) :
    (∀ e : Option ℚ, normEntry dfe c e = none) ∧
    tickers_clusters_er o k dfe = .error .inputNaN := by
  have hcol : ∀ e : Option ℚ, normEntry dfe c e = none := by
    intro e
    unfold normEntry
    cases e with
    | none => rfl
    | some q =>
      cases hmn : colMin dfe c with
      | none => rw [hconst, hmn]
      | some mn =>
        rw [hconst, hmn]
        dsimp only
        rw [if_pos rfl]
  refine ⟨hcol, ?_⟩
  have hrow : (r0.2.enum.map (fun p => normEntry dfe p.1 p.2)) ∈ normalizeDf dfe := by
    unfold normalizeDf
    exact List.mem_map_of_mem _ hr0
  have hmem : none ∈ r0.2.enum.map (fun p => normEntry dfe p.1 p.2) := by
    rw [List.mem_map]
    refine ⟨(c, r0.2.getD c none), ?_, hcol _⟩
    rw [List.mem_enum_iff_getElem?]
    dsimp only
    rw [List.getElem?_eq_getElem hc]
    rw [List.getD_eq_getElem _ _ hc]
  have hdn : denan (normalizeDf dfe) = none :=
    denan_none_of_entry _ _ hrow hmem
  unfold tickers_clusters_er KMeansClustering.fit_predict KMeansClustering.fit
    pipelineKMeans KMeansClustering.init
  dsimp only
  rw [if_neg (show ¬ k < 1 by omega), hdn]

/-- C3 counterexample: with a constant column, NaN entries DO reach the
normalized matrix handed to the clustering strategy (so the claim that
no NaN reaches it, and that a named degenerate-column error is raised
before clustering, is false on the code): the normalized matrix contains
`none` and the run dies inside the clustering library's NaN check. -/
theorem C3_cex_nan_reaches_clustering :
    normalizeDf dfeConst = [[none, some 0], [none, some 1]] ∧
    tickers_clusters_er oracle0 2 dfeConst = .error .inputNaN := by
  with_unfolding_all decide

/-- Witness for C3 at the concrete constant-column matrix. -/
theorem C3_constant_column_witness :
    (1 ≤ 2 ∧ colMax dfeConst 0 = colMin dfeConst 0) ∧
    tickers_clusters_er oracle0 2 dfeConst = .error .inputNaN :=
  ⟨⟨by decide, by decide⟩,
    (C3_constant_column oracle0 2 0 dfeConst (by decide) (by decide)
      ("A", [some 1, some 2]) (by decide) (by decide)).2⟩

theorem gmmSweepScore_ok (o : ClusterOracle) (crit : String) (seed : ℕ)
    (m : Mat) (n : ℕ) (hn : ¬ m.length < n)
    (hc : crit = "aic" ∨ crit = "bic") :
    gmmSweepScore o crit seed n m = .ok (critScore o crit seed n m) := by
  unfold gmmSweepScore critScore
  rw [if_neg hn]
  rcases hc with h | h <;> rw [h] <;> simp

/-- C4: with no explicit component count, `GMMClustering.fit` sweeps
every count in `[1, max_components]`, scores each count by the selected
criterion (AIC or BIC), selects the count minimizing that criterion with
ties broken towards the smallest count, and fits the final mixture with
the selected count. -/
theorem C4_gmm_selection (o : ClusterOracle) (s : GMMClustering) (x : OMat)
    (m : Mat) (hd : denan x = some m) (hn : s.n_components = none)
    (hc : s.criterion = "aic" ∨ s.criterion = "bic")
    (h1 : 1 ≤ s.max_components) (hs : s.max_components ≤ m.length) :
    ∃ c, GMMClustering.fit o s x
        = .ok { s with optimal_components := some c,
                       gmm := some ⟨c, s.random_state, m⟩ } ∧
      1 ≤ c ∧ c ≤ s.max_components ∧
      (∀ j, 1 ≤ j → j ≤ s.max_components →
        critScore o s.criterion s.random_state c m
          ≤ critScore o s.criterion s.random_state j m) ∧
      (∀ j, 1 ≤ j → j ≤ s.max_components →
        critScore o s.criterion s.random_state j m
          = critScore o s.criterion s.random_state c m → c ≤ j) := by
  have hsweep : exceptMapList
      (fun n => gmmSweepScore o s.criterion s.random_state n m)
      (List.range' 1 s.max_components)
      = .ok ((List.range' 1 s.max_components).map
          (fun n => critScore o s.criterion s.random_state n m)) := by
    refine exceptMapList_ok_of_forall _ _ _ ?_
    intro n hmem
    rw [List.mem_range'_1] at hmem
    exact gmmSweepScore_ok o s.criterion s.random_state m n (by omega) hc
  set crits := (List.range' 1 s.max_components).map
    (fun n => critScore o s.criterion s.random_state n m) with hcrits
  have hlen : crits.length = s.max_components := by
    rw [hcrits, List.length_map, List.length_range']
  have hne : crits ≠ [] := by
    intro hnil
    rw [hnil] at hlen
    simp at hlen
    omega
  cases hargm : listArgmin crits with
  | none =>
    exact absurd (listArgmin_isSome crits hne) (by rw [hargm]; simp)
  | some i =>
    have hi : i < s.max_components := by
      have := listArgmin_lt_length crits i hargm
      omega
    have hgetD : ∀ t, t < s.max_components →
        crits.getD t 0 = critScore o s.criterion s.random_state (1 + t) m := by
      intro t ht
      rw [hcrits]
      exact getD_map_range' _ 1 s.max_components t ht
    refine ⟨i + 1, ?_, by omega, by omega, ?_, ?_⟩
    · unfold GMMClustering.fit
      rw [hn, hd]
      dsimp only
      rw [hsweep]
      dsimp only
      rw [hargm]
      dsimp only
      rw [if_neg (show ¬ m.length < i + 1 by omega)]
    · intro j hj1 hj2
      have hjm : j - 1 < crits.length := by omega
      have := listArgmin_min crits i hargm (j - 1) hjm
      rw [hgetD i hi, hgetD (j - 1) (by omega)] at this
      have hjj : 1 + (j - 1) = j := by omega
      rw [hjj] at this
      have hii : 1 + i = i + 1 := by omega
      rw [hii] at this
      exact this
    · intro j hj1 hj2 heq
      by_contra hlt
      push_neg at hlt
      have hjm : j - 1 < i := by omega
      have := listArgmin_first crits i hargm (j - 1) hjm
      rw [hgetD i hi, hgetD (j - 1) (by omega)] at this
      have hjj : 1 + (j - 1) = j := by omega
      rw [hjj] at this
      have hii : 1 + i = i + 1 := by omega
      rw [hii] at this
      rw [heq] at this
      exact lt_irrefl _ this

/-- Witness for C4 at a concrete default-constructed strategy and the
10-row matrix. -/
theorem C4_gmm_selection_witness :
    denan x10 = some m10 ∧
    ∃ c, GMMClustering.fit oracle0 (GMMClustering.init none) x10
        = .ok ⟨10, "bic", none, 42, some c, some ⟨c, 42, m10⟩⟩ ∧
      1 ≤ c ∧ c ≤ 10 ∧
      (∀ j, 1 ≤ j → j ≤ 10 →
        critScore oracle0 "bic" 42 c m10 ≤ critScore oracle0 "bic" 42 j m10) ∧
      (∀ j, 1 ≤ j → j ≤ 10 →
        critScore oracle0 "bic" 42 j m10 = critScore oracle0 "bic" 42 c m10 →
          c ≤ j) :=
  ⟨by decide, C4_gmm_selection oracle0 (GMMClustering.init none) x10 m10
    (by decide) rfl (Or.inr rfl) (by decide) (by decide)⟩

theorem frobSq_map_vsub (rows : Mat) (c : List ℚ) :
    frobSq (rows.map (fun r => vsub r c)) = (rows.map (fun r => sqDist r c)).sum := by
  unfold frobSq
  rw [List.map_map]
  rfl

theorem sum_classes (g : ℕ → List ℚ → ℚ) :
    ∀ (pairs : List (List ℚ × ℕ)) (k : ℕ),
      (∀ p ∈ pairs, p.2 < k) →
      ((List.range k).map (fun i =>
        ((pairs.filterMap (fun p => if p.2 = i then some p.1 else none)).map
          (g i)).sum)).sum
      = (pairs.map (fun p => g p.2 p.1)).sum
  | [], k, _ => by simp
  | p :: rest, k, h => by
    have hpk : p.2 < k := h p (List.mem_cons_self p rest)
    have hrest : ∀ q ∈ rest, q.2 < k :=
      fun q hq => h q (List.mem_cons_of_mem p hq)
    have hstep : (List.range k).map (fun i =>
        (((p :: rest).filterMap (fun q => if q.2 = i then some q.1 else none)).map
          (g i)).sum)
        = (List.range k).map (fun i =>
            (if p.2 = i then g p.2 p.1 else 0) +
            ((rest.filterMap (fun q => if q.2 = i then some q.1 else none)).map
              (g i)).sum) := by
      refine List.map_eq_map_iff.mpr ?_
      intro i hi
      rw [List.filterMap_cons]
      by_cases hpi : p.2 = i
      · rw [if_pos hpi, if_pos hpi]
        dsimp only
        rw [List.map_cons, List.sum_cons]
        rw [← hpi]
      · rw [if_neg hpi, if_neg hpi]
        dsimp only
        ring
    rw [hstep, sum_map_add, sum_range_ite (g p.2 p.1) k p.2 hpk,
      sum_classes g rest k hrest, List.map_cons, List.sum_cons]

set_option maxHeartbeats 1000000 in
theorem wcssEntry_rowwise (o : ClusterOracle) (data : Mat) (k : ℕ)
    (hlab : ∀ l ∈ o.aggLabels k data, l < k) :
    wcssEntry o data k = wcssRowwise data (o.aggLabels k data) := by
  unfold wcssEntry wcssRowwise rowsWithLabel
  have hstep : (List.range k).map (fun i =>
      frobSq (((data.zip (o.aggLabels k data)).filterMap
          (fun p => if p.2 = i then some p.1 else none)).map
        (fun r => vsub r (meanAxis0 ((data.zip (o.aggLabels k data)).filterMap
          (fun p => if p.2 = i then some p.1 else none))))))
      = (List.range k).map (fun i =>
          (((data.zip (o.aggLabels k data)).filterMap
              (fun p => if p.2 = i then some p.1 else none)).map
            (fun r => sqDist r (meanAxis0 ((data.zip (o.aggLabels k data)).filterMap
              (fun p => if p.2 = i then some p.1 else none))))).sum) := by
    refine List.map_eq_map_iff.mpr ?_
    intro i hi
    exact frobSq_map_vsub _ _
  rw [hstep]
  have h2 := sum_classes
    (fun i r => sqDist r (meanAxis0 ((data.zip (o.aggLabels k data)).filterMap
      (fun p => if p.2 = i then some p.1 else none))))
    (data.zip (o.aggLabels k data)) k
    (fun p hp => hlab p.2 (List.of_mem_zip hp).2)
  dsimp only at h2
  exact h2

theorem calculate_wcss_ok (o : ClusterOracle)
    (s : AgglomerativeClusteringOptimal) (data : Mat)
    (hs : s.max_clusters ≤ data.length) :
    AgglomerativeClusteringOptimal.calculate_wcss o s data
      = .ok ((List.range' 1 s.max_clusters).map (wcssEntry o data)) := by
  unfold AgglomerativeClusteringOptimal.calculate_wcss
  refine exceptMapList_ok_of_forall _ _ _ ?_
  intro k hk
  rw [List.mem_range'_1] at hk
  rw [if_neg (show ¬ data.length < k by omega)]

/-- C5: with no explicit cluster count, the hierarchical variant
computes, for every `k` in `[1, max_clusters]`, the within-cluster sum
of squared distances to centroids recomputed from the agglomerative
partition (the grouped Frobenius form of the code equals the row-wise
sum of squared distances of the spec), takes two successive finite
differences of the WCSS curve, and selects `argmin(second derivative) + 2`,
which `fit` then records as the optimal cluster count. -/
theorem C5_agg_elbow (o : ClusterOracle) (s : AgglomerativeClusteringOptimal)
    (data : Mat) (hn : s.n_clusters = none) (h3 : 3 ≤ s.max_clusters)
    (hs : s.max_clusters ≤ data.length)
    (hlab : ∀ k, 1 ≤ k → k ≤ s.max_clusters → ∀ l ∈ o.aggLabels k data, l < k) :
    ∃ w i,
      AgglomerativeClusteringOptimal.calculate_wcss o s data = .ok w ∧
      w.length = s.max_clusters ∧
      (∀ k, 1 ≤ k → k ≤ s.max_clusters →
        w.getD (k - 1) 0 = wcssRowwise data (o.aggLabels k data)) ∧
      listArgmin (listDiff (listDiff w)) = some i ∧
      (∀ j, j < (listDiff (listDiff w)).length →
        (listDiff (listDiff w)).getD i 0 ≤ (listDiff (listDiff w)).getD j 0) ∧
      AgglomerativeClusteringOptimal.find_optimal_clusters o s data
        = .ok (i + 2) ∧
      ∃ s', AgglomerativeClusteringOptimal.fit o s
          (data.map (fun r => r.map some)) = .ok s' ∧
        s'.optimal_clusters = some (i + 2) := by
  have hw := calculate_wcss_ok o s data hs
  set w := (List.range' 1 s.max_clusters).map (wcssEntry o data) with hwdef
  have hwlen : w.length = s.max_clusters := by
    rw [hwdef, List.length_map, List.length_range']
  have hdlen : (listDiff (listDiff w)).length = s.max_clusters - 2 := by
    rw [listDiff_length, listDiff_length, hwlen]
    omega
  have hdne : listDiff (listDiff w) ≠ [] := by
    intro hnil
    rw [hnil] at hdlen
    simp at hdlen
    omega
  cases hargm : listArgmin (listDiff (listDiff w)) with
  | none =>
    exact absurd (listArgmin_isSome _ hdne) (by rw [hargm]; simp)
  | some i =>
    have hi : i < s.max_clusters - 2 := by
      have := listArgmin_lt_length _ i hargm
      omega
    refine ⟨w, i, hw, hwlen, ?_, hargm, ?_, ?_, ?_⟩
    · intro k h1 h2
      rw [hwdef, getD_map_range' _ 1 s.max_clusters (k - 1) (by omega)]
      have hk : 1 + (k - 1) = k := by omega
      rw [hk]
      exact wcssEntry_rowwise o data k (hlab k h1 h2)
    · intro j hj
      exact listArgmin_min _ i hargm j hj
    · unfold AgglomerativeClusteringOptimal.find_optimal_clusters
      rw [hw]
      dsimp only
      rw [hargm]
    · refine ⟨(⟨s.max_clusters, s.n_clusters, some (i + 2),
          some (.mk (i + 2) (some (o.aggLabels (i + 2) data)))⟩ :
            AgglomerativeClusteringOptimal), ?_, rfl⟩
      unfold AgglomerativeClusteringOptimal.fit
      rw [hn, denan_allSome]
      dsimp only
      rw [show AgglomerativeClusteringOptimal.find_optimal_clusters o s data
          = .ok (i + 2) by
        unfold AgglomerativeClusteringOptimal.find_optimal_clusters
        rw [hw]
        dsimp only
        rw [hargm]]
      dsimp only
      unfold AggSKModelState.fitSK
      rw [if_neg (show ¬ (AggSKModelState.mk (i + 2) none).n_clusters < 1 by
        simp only [AggSKModelState.n_clusters]
        omega)]
      rw [if_neg (show ¬ data.length < (AggSKModelState.mk (i + 2) none).n_clusters by
        simp only [AggSKModelState.n_clusters]
        omega)]
      simp only [AggSKModelState.n_clusters]

/-- Witness for C5 at the concrete 10-row matrix and default-constructed
strategy, with the concrete oracle discharging the label-range contract. -/
theorem C5_agg_elbow_witness :
    ((AgglomerativeClusteringOptimal.init none).n_clusters = none ∧
      3 ≤ (AgglomerativeClusteringOptimal.init none).max_clusters) ∧
    ∃ w i,
      AgglomerativeClusteringOptimal.calculate_wcss oracle0
        (AgglomerativeClusteringOptimal.init none) m10 = .ok w ∧
      w.length = (AgglomerativeClusteringOptimal.init none).max_clusters ∧
      (∀ k, 1 ≤ k → k ≤ (AgglomerativeClusteringOptimal.init none).max_clusters →
        w.getD (k - 1) 0 = wcssRowwise m10 (oracle0.aggLabels k m10)) ∧
      listArgmin (listDiff (listDiff w)) = some i ∧
      (∀ j, j < (listDiff (listDiff w)).length →
        (listDiff (listDiff w)).getD i 0 ≤ (listDiff (listDiff w)).getD j 0) ∧
      AgglomerativeClusteringOptimal.find_optimal_clusters oracle0
        (AgglomerativeClusteringOptimal.init none) m10 = .ok (i + 2) ∧
      ∃ s', AgglomerativeClusteringOptimal.fit oracle0
          (AgglomerativeClusteringOptimal.init none)
          (m10.map (fun r => r.map some)) = .ok s' ∧
        s'.optimal_clusters = some (i + 2) :=
  ⟨⟨rfl, by decide⟩,
    C5_agg_elbow oracle0 (AgglomerativeClusteringOptimal.init none) m10 rfl
      (by decide) (by decide)
      (fun k h1 h2 l hl => by
        simp only [oracle0] at hl
        rw [List.mem_map] at hl
        obtain ⟨t, ht, htl⟩ := hl
        rw [← htl]
        exact Nat.mod_lt t (by omega))⟩

/-- C8 amended: whenever `max_clusters ≥ 3` (so that the twice-
differenced score curve is nonempty) and the data has at least
`max_clusters` samples, the hierarchical selector returns a count, and
that count lies in `[1, max_clusters]` — for any score curve, ties
included, since `np.argmin` picks the first minimum. -/
theorem C8_selector_in_range (o : ClusterOracle)
    (s : AgglomerativeClusteringOptimal) (data : Mat)
    (h3 : 3 ≤ s.max_clusters) (hs : s.max_clusters ≤ data.length) :
    ∃ kk, AgglomerativeClusteringOptimal.find_optimal_clusters o s data
        = .ok kk ∧ 1 ≤ kk ∧ kk ≤ s.max_clusters := by
  have hw := calculate_wcss_ok o s data hs
  set w := (List.range' 1 s.max_clusters).map (wcssEntry o data) with hwdef
  have hwlen : w.length = s.max_clusters := by
    rw [hwdef, List.length_map, List.length_range']
  have hdlen : (listDiff (listDiff w)).length = s.max_clusters - 2 := by
    rw [listDiff_length, listDiff_length, hwlen]
    omega
  have hdne : listDiff (listDiff w) ≠ [] := by
    intro hnil
    rw [hnil] at hdlen
    simp at hdlen
    omega
  cases hargm : listArgmin (listDiff (listDiff w)) with
  | none =>
    exact absurd (listArgmin_isSome _ hdne) (by rw [hargm]; simp)
  | some i =>
    have hi : i < s.max_clusters - 2 := by
      have := listArgmin_lt_length _ i hargm
      omega
    refine ⟨i + 2, ?_, by omega, by omega⟩
    unfold AgglomerativeClusteringOptimal.find_optimal_clusters
    rw [hw]
    dsimp only
    rw [hargm]

/-- C8 counterexample: with `max_clusters = 2` the WCSS sweep itself is
well defined (two entries), but the twice-differenced curve is empty, so
the selector crashes on `np.argmin` of an empty sequence instead of
returning an in-range count. -/
theorem C8_cex_selector_crashes :
    AgglomerativeClusteringOptimal.calculate_wcss oracle0 saMax2 m3
      = .ok [wcssEntry oracle0 m3 1, wcssEntry oracle0 m3 2] ∧
    AgglomerativeClusteringOptimal.find_optimal_clusters oracle0 saMax2 m3
      = .error .argminEmpty := by
  with_unfolding_all decide

/-- Witness for C8 at the concrete 10-row matrix. -/
theorem C8_selector_in_range_witness :
    (3 ≤ (AgglomerativeClusteringOptimal.init none).max_clusters ∧
      (AgglomerativeClusteringOptimal.init none).max_clusters ≤ m10.length) ∧
    ∃ kk, AgglomerativeClusteringOptimal.find_optimal_clusters oracle0
        (AgglomerativeClusteringOptimal.init none) m10 = .ok kk ∧
      1 ≤ kk ∧ kk ≤ (AgglomerativeClusteringOptimal.init none).max_clusters :=
  ⟨⟨by decide, by decide⟩,
    C8_selector_in_range oracle0 (AgglomerativeClusteringOptimal.init none) m10
      (by decide) (by decide)⟩

theorem meanSkipNA_allSome (l : List (Option ℚ)) (hne : l ≠ [])
    (hall : ∀ e ∈ l, e.isSome) :
    meanSkipNA l = some (arithMean l.reduceOption) := by
  unfold meanSkipNA arithMean
  have hv : ¬ l.reduceOption.isEmpty := by
    cases l with
    | nil => exact absurd rfl hne
    | cons e l' =>
      have he := hall e (List.mem_cons_self e l')
      cases e with
      | none => simp at he
      | some q =>
        have : q ∈ (some q :: l').reduceOption := by
          rw [List.reduceOption_mem_iff]
          exact List.mem_cons_self _ _
        intro hemp
        rw [List.isEmpty_iff] at hemp
        rw [hemp] at this
        exact List.not_mem_nil q this
  rw [if_neg hv]

theorem tce_shape (o : ClusterOracle) (k : ℕ)
    (dfe : List (String × List (Option ℚ))) (t : List (String × Option ℚ × ℕ))
    (ht : tickers_clusters_er o k dfe = .ok t) :
    ∃ ls, (KMeansClustering.fit_predict o (pipelineKMeans k) (normalizeDf dfe)).1
        = .ok (.labels ls) ∧
      ls.length = dfe.length ∧
      t = (dfe.zip ls).map (fun p =>
        (p.1.1, meanSkipNA ((p.1.2 ++ [some ((p.2 : ℚ))]).dropLast), p.2)) := by
  unfold tickers_clusters_er at ht
  cases hfp : (KMeansClustering.fit_predict o (pipelineKMeans k) (normalizeDf dfe)).1 with
  | error e =>
    rw [hfp] at ht
    exact absurd ht (by simp)
  | ok pr =>
    rw [hfp] at ht
    cases pr with
    | model m => exact absurd ht (by simp)
    | labels ls =>
      dsimp only at ht
      by_cases hlen : ls.length = dfe.length
      · rw [if_pos hlen] at ht
        exact ⟨ls, rfl, hlen, (Except.ok.inj ht).symm⟩
      · rw [if_neg hlen] at ht
        exact absurd ht (by simp)

theorem calculate_er_symbols (inp : ERInput) (tickers : List String)
    (dft : List (ℕ × List ℚ)) (ip ep : ℕ)
    (dfe : List (String × List (Option ℚ)))
    (h : calculate_er inp tickers dft ip ep = .ok dfe) :
    dfe.map (·.1) = tickers := by
  unfold calculate_er at h
  by_cases hp : (List.range' ip (ep - ip)).isEmpty
  · rw [if_pos hp] at h
    exact absurd h (by simp)
  · rw [if_neg hp] at h
    have heq := Except.ok.inj h
    rw [← heq, List.map_map]
    exact List.enum_map_snd tickers

/-- C9: whenever `tickers_clusters_er` succeeds, the emitted table has
one row per clustered instrument (same symbols, same order, same count),
its label column is exactly the label array returned by the clustering
strategy on the normalized matrix, each row's mean field is the NaN-
skipping mean of that instrument's period columns ONLY — the appended
label column is excluded by the `iloc[:, :-1]` slice — and on rows whose
period values are all defined that mean is the plain arithmetic mean. -/
theorem C9_result_aggregator (o : ClusterOracle) (k : ℕ)
    (dfe : List (String × List (Option ℚ))) (t : List (String × Option ℚ × ℕ))
    (ht : tickers_clusters_er o k dfe = .ok t) :
    t.length = dfe.length ∧
    t.map (·.1) = dfe.map (·.1) ∧
    (∃ ls, (KMeansClustering.fit_predict o (pipelineKMeans k) (normalizeDf dfe)).1
        = .ok (.labels ls) ∧ t.map (fun p => p.2.2) = ls ∧
      (∀ i, ∀ h1 : i < t.length, ∀ h2 : i < dfe.length, ∀ h3 : i < ls.length,
        t.get ⟨i, h1⟩ = ((dfe.get ⟨i, h2⟩).1,
          meanSkipNA (dfe.get ⟨i, h2⟩).2, ls.get ⟨i, h3⟩))) ∧
    (∀ r ∈ dfe, r.2 ≠ [] → (∀ e ∈ r.2, e.isSome) →
      meanSkipNA r.2 = some (arithMean r.2.reduceOption)) := by
  obtain ⟨ls, hfp, hlen, htt⟩ := tce_shape o k dfe t ht
  subst htt
  refine ⟨?_, ?_, ⟨ls, hfp, ?_, ?_⟩, ?_⟩
  · rw [List.length_map, List.length_zip, hlen]
    omega
  · rw [List.map_map]
    conv_rhs => rw [← List.map_fst_zip dfe ls (le_of_eq hlen.symm)]
    rw [List.map_map]
    rfl
  · rw [List.map_map]
    have := List.map_snd_zip dfe ls (le_of_eq hlen)
    exact this
  · intro i h1 h2 h3
    simp only [List.get_eq_getElem, List.getElem_map, List.getElem_zip,
      List.dropLast_concat]
  · intro r hr hne hall
    exact meanSkipNA_allSome r.2 hne hall

theorem dfe9_norm : normalizeDf dfe9 = [[some 0], [some 1]] := by
  with_unfolding_all decide

theorem fp_norm9 : (KMeansClustering.fit_predict oracle0 (pipelineKMeans 2)
    (normalizeDf dfe9)).1 = .ok (.labels [0, 1]) := by
  rw [dfe9_norm]
  decide

theorem tce_dfe9 : tickers_clusters_er oracle0 2 dfe9 = .ok t9 := by
  unfold tickers_clusters_er
  rw [fp_norm9]
  dsimp only
  rw [if_pos (show ([0, 1] : List ℕ).length = dfe9.length from rfl)]
  unfold dfe9 t9
  norm_num [meanSkipNA]

/-- Witness for C9 at the concrete feature matrix. -/
theorem C9_result_aggregator_witness :
    tickers_clusters_er oracle0 2 dfe9 = .ok t9 ∧ t9.length = dfe9.length :=
  ⟨tce_dfe9, (C9_result_aggregator oracle0 2 dfe9 t9 tce_dfe9).1⟩

/-- C2 amended: whenever the pipeline run succeeds, the final table
carries exactly the input universe — one row per instrument, in input
order, no instrument dropped and none duplicated (for a duplicate-free
universe, matching the pandas frame whose columns are the tickers). -/
theorem C2_no_silent_drops (o : ClusterOracle) (inp : ERInput)
    (tickers : List String) (ip ep k : ℕ) (hnd : tickers.Nodup)
    (t : List (String × Option ℚ × ℕ))
    (ht : runAnalysis o inp tickers ip ep k = .ok t) :
    t.map (·.1) = tickers := by
  unfold runAnalysis at ht
  cases hl : load_data inp tickers with
  | error e =>
    rw [hl] at ht
    exact absurd ht (by simp)
  | ok dft =>
    rw [hl] at ht
    dsimp only at ht
    cases hc : calculate_er inp tickers dft ip ep with
    | error e =>
      rw [hc] at ht
      exact absurd ht (by simp)
    | ok dfe =>
      rw [hc] at ht
      dsimp only at ht
      obtain ⟨ls, hfp, hlen, htt⟩ := tce_shape o k dfe t ht
      subst htt
      rw [List.map_map]
      conv_rhs => rw [← calculate_er_symbols inp tickers dft ip ep dfe hc]
      conv_rhs => rw [← List.map_fst_zip dfe ls (le_of_eq hlen.symm)]
      rw [List.map_map]
      rfl

/-- C2 counterexample: symbol `S` has 2 price samples, fewer than the
largest lookback length 3 of the range `[2, 4)`; instead of `S` being
excluded while the run succeeds for `A`, the time-row `dropna` shrinks
the shared history of BOTH symbols to 2 samples, every efficiency ratio
becomes NaN, and the whole run fails inside the clustering library's
NaN check — no per-instrument exclusion happens. -/
theorem C2_cex_short_history :
    (inp0.priceData "S").length < 3 ∧
    runAnalysis oracle0 inp0 ["A", "S"] 2 4 2 = .error .inputNaN := by
  decide

theorem load_dataW : load_data inp0 ["A", "B"] = .ok dftW := by
  decide

theorem calculate_erW : calculate_er inp0 ["A", "B"] dftW 2 3 = .ok dfe9 := by
  norm_num [calculate_er, tickerColumn, meanSkipNA, round5, roundHalfEven,
    inp0, dftW, dfe9, List.range', List.enum, List.enumFrom, List.reduceOption,
    List.filterMap]
  refine ⟨⟨7/4, ⟨by simp, rfl⟩, ?_⟩, ⟨7/2, ⟨by simp, rfl⟩, ?_⟩⟩ <;>
    norm_num [Int.fract]

theorem runAnalysisW : runAnalysis oracle0 inp0 ["A", "B"] 2 3 2 = .ok t9 := by
  unfold runAnalysis
  rw [load_dataW]
  dsimp only
  rw [calculate_erW]
  dsimp only
  exact tce_dfe9

/-- Witness for C2 at the concrete two-symbol universe whose run
succeeds. -/
theorem C2_no_silent_drops_witness :
    (["A", "B"].Nodup ∧ runAnalysis oracle0 inp0 ["A", "B"] 2 3 2 = .ok t9) ∧
    t9.map (·.1) = ["A", "B"] :=
  ⟨⟨by decide, runAnalysisW⟩,
    C2_no_silent_drops oracle0 inp0 ["A", "B"] 2 3 2 (by decide) t9 runAnalysisW⟩

/-- C7 amended: the three invalid inputs all make the run fail (no
default is substituted), but through library errors, not precondition
checks: an empty instrument set fails in `load_data` on pandas' empty
concatenation; an empty lookback range (`end <= init`) fails in
`calculate_er` on the same empty-concatenation error, after data
loading; a non-positive cluster count passes feature construction
untouched and only fails inside the clustering library's parameter
validation. -/
theorem C7_invalid_inputs (o : ClusterOracle) (inp : ERInput)
    (tickers : List String) (ip ep k : ℕ) :
    runAnalysis o inp [] ip ep k = .error .concatEmpty ∧
    (tickers ≠ [] → ep ≤ ip →
      runAnalysis o inp tickers ip ep k = .error .concatEmpty) ∧
    (∀ dfe, tickers_clusters_er o 0 dfe = .error .invalidClusterCount) := by
  refine ⟨rfl, ?_, fun dfe => rfl⟩
  intro hne hle
  unfold runAnalysis load_data
  rw [if_neg (show ¬ tickers.isEmpty = true by
    simpa [List.isEmpty_iff] using hne)]
  dsimp only
  unfold calculate_er
  rw [if_pos (show (List.range' ip (ep - ip)).isEmpty = true by
    rw [Nat.sub_eq_zero_of_le hle]
    rfl)]

/-- C7 counterexample: with a non-positive cluster count (0) and valid
data, the feature matrix IS produced (calculate_er succeeds), and the
run then fails with the clustering library's parameter error — not with
a descriptive precondition error raised before feature construction. -/
theorem C7_cex_error_after_features :
    exceptOk (calculate_er inp0 ["A", "B"] dftW 2 3) = true ∧
    runAnalysis oracle0 inp0 ["A", "B"] 2 3 0 = .error .invalidClusterCount := by
  constructor
  · rw [calculate_erW]
    rfl
  · unfold runAnalysis
    rw [load_dataW]
    dsimp only
    rw [calculate_erW]
    dsimp only
    rfl

/-- Witness for C7 at a concrete nonempty universe with an empty
lookback range. -/
theorem C7_invalid_inputs_witness :
    (["A"] ≠ ([] : List String) ∧ 2 ≤ 2) ∧
    runAnalysis oracle0 inp0 ["A"] 2 2 5 = .error .concatEmpty :=
  ⟨⟨by decide, le_refl 2⟩,
    (C7_invalid_inputs oracle0 inp0 ["A"] 2 2 5).2.1 (by decide) (le_refl 2)⟩

